import Mathlib

/- Shallow embedding of ubuntu_image_fetcher.py, a single-script image
downloader with content-hash deduplication.

The filesystem is modelled as the listing of the one target directory that
the script touches: an association list from file name to file content
(content is a String standing for the byte string).  Machine details the
script never depends on (chunked reads inside get_file_hash, byte
encodings) are elided; control flow, string handling, URL parsing and the
try/except/finally structure are modelled faithfully.  In particular the
local variables file_path and temp_path are only bound part way through
fetch_and_save_image, so the PermissionError handler (which prints
file_path) and the finally block (which reads temp_path) raise
UnboundLocalError when they run on an exit path taken before those
assignments; the model tracks this binding state explicitly.

Fallible OS primitives whose failure the script explicitly handles
(os.makedirs, os.rename, os.remove) can be made to fail through a Faults
record.  The SHA-256 digest is a function parameter sha256 of the model;
no theorem below depends on any property of it beyond being a function. -/

set_option autoImplicit false

namespace UIF

/-- Contents of the target directory: file name paired with file content,
in directory-listing order. -/
abbrev Fs := List (String × String)

/-- os.path.join(directory, name) for a relative directory with no
trailing separator, the only shape the script uses. -/
def pjoin (dir name : String) : String := dir ++ "/" ++ name

/-- Delete the entry with the given name, as os.remove does. -/
def removeFile (fs : Fs) (name : String) : Fs :=
  fs.filter (fun e => e.1 != name)

/-- Create or overwrite the entry with the given name, as open(..,"wb")
plus write does.  Listing order of a rewritten entry is OS-unspecified;
the model appends it at the end. -/
def writeFile (fs : Fs) (name content : String) : Fs :=
  removeFile fs name ++ [(name, content)]

/-- Lines 8-17: get_file_hash computes the SHA-256 hex digest of the file
with the given name; FileNotFoundError (no such entry) is caught and
yields None. -/
def get_file_hash (sha256 : String → String) (fs : Fs) (name : String) : Option String :=
  match fs.lookup name with
  | some content => some (sha256 content)
  | Option.none => Option.none

/-- Lines 19-22: the Content-Type allow-list. -/
def valid_types : List String := ["image/jpeg", "image/png", "image/gif", "image/bmp"]

/-- Lines 19-22: is_valid_image checks literal membership of the header
value in the allow-list. -/
def is_valid_image (content_type : String) : Bool :=
  valid_types.contains content_type

/- ---------------- URL parsing (urllib.parse.urlparse(url).path) ------- -/

/-- Split a character list at the first occurrence of c: the part before
it and, when c occurs, the part after it. -/
def splitFirst (c : Char) : List Char → List Char × Option (List Char)
  | [] => ([], Option.none)
  | x :: xs =>
      if x = c then ([], some xs)
      else
        let r := splitFirst c xs
        (x :: r.1, r.2)

/-- Characters allowed in a URL scheme by urllib.parse. -/
def scheme_chars : List Char :=
  ("abcdefghijklmnopqrstuvwxyzABCDEFGHIJKLMNOPQRSTUVWXYZ0123456789+-.").data

def isAsciiAlpha (c : Char) : Bool :=
  ('a' ≤ c && c ≤ 'z') || ('A' ≤ c && c ≤ 'Z')

/-- urlsplit scheme handling: when the text before the first colon is
nonempty, starts with an ASCII letter and consists of scheme characters,
it is removed and lowercased as the scheme. -/
def split_scheme (url : List Char) : List Char × List Char :=
  match splitFirst ':' url with
  | (before, some after) =>
      match before with
      | [] => ([], url)
      | c :: _ =>
          if isAsciiAlpha c && before.all (fun ch => scheme_chars.contains ch) then
            (before.map Char.toLower, after)
          else ([], url)
  | (_, Option.none) => ([], url)

/-- urlsplit netloc handling: after a leading double slash, everything up
to the next slash, question mark or hash sign is the netloc. -/
def strip_netloc (url : List Char) : List Char :=
  match url with
  | '/' :: '/' :: rest => rest.dropWhile (fun c => c != '/' && c != '?' && c != '#')
  | _ => url

def strip_fragment (url : List Char) : List Char := url.takeWhile (fun c => c != '#')

def strip_query (url : List Char) : List Char := url.takeWhile (fun c => c != '?')

/-- Schemes for which urlparse splits ;params off the path. -/
def uses_params : List String :=
  ["", "ftp", "hdl", "prospero", "http", "imap", "https", "shttp", "rtsp",
   "rtsps", "rtspu", "sip", "sips", "mms", "sftp", "tel"]

/-- urllib.parse internal params split on the path: drop a ;params suffix
from the last path segment, when present. -/
def splitparams_path (path : List Char) : List Char :=
  if path.contains '/' then
    let seg := (path.reverse.takeWhile (fun c => c != '/')).reverse
    let pre := path.take (path.length - seg.length)
    if seg.contains ';' then pre ++ seg.takeWhile (fun c => c != ';') else path
  else
    if path.contains ';' then path.takeWhile (fun c => c != ';') else path

/-- The path component of urllib.parse.urlparse(url): strip scheme, then
netloc, then fragment, then query, then params (for schemes that use
them). -/
def urlparse_path (url : String) : String :=
  let sr := split_scheme url.data
  let rest1 := strip_netloc sr.2
  let rest2 := strip_fragment rest1
  let path := strip_query rest2
  let path2 :=
    if uses_params.contains (String.mk sr.1) then splitparams_path path else path
  String.mk path2

/-- os.path.basename for POSIX paths: the part after the last slash. -/
def basename (p : String) : String :=
  String.mk ((p.data.reverse.takeWhile (fun c => c != '/')).reverse)

/- ---------------- Filename derivation (lines 50-55) ------------------- -/

/-- str.lower, modelled for ASCII letters (the extensions it is compared
against are ASCII). -/
def pyLower (s : String) : String := String.mk (s.data.map Char.toLower)

/-- str.endswith for a single suffix. -/
def pyEndsWith (s suffix : String) : Bool := suffix.data.isSuffixOf s.data

/-- The extension tuple of line 53. -/
def allowed_exts : List String := [".jpg", ".jpeg", ".png", ".gif", ".bmp"]

/-- filename.lower().endswith((".jpg", ".jpeg", ".png", ".gif", ".bmp")). -/
def has_allowed_ext (filename : String) : Bool :=
  allowed_exts.any (fun ext => pyEndsWith (pyLower filename) ext)

/-- The wall-clock reading used by datetime.datetime.now(). -/
structure DateTime where
  year : Nat
  month : Nat
  day : Nat
  hour : Nat
  minute : Nat
  second : Nat
  deriving DecidableEq, Repr

/-- Field ranges under which the strftime model below is exact (datetime
years below 1000 are not zero-padded by every platform strftime, so the
model is restricted to four-digit years). -/
def DateTime.Valid (d : DateTime) : Prop :=
  1000 ≤ d.year ∧ d.year ≤ 9999 ∧ 1 ≤ d.month ∧ d.month ≤ 12 ∧
    1 ≤ d.day ∧ d.day ≤ 31 ∧ d.hour ≤ 23 ∧ d.minute ≤ 59 ∧ d.second ≤ 59

instance (d : DateTime) : Decidable d.Valid := by
  unfold DateTime.Valid; infer_instance

def digitChar (k : Nat) : Char :=
  if k = 0 then '0' else if k = 1 then '1' else if k = 2 then '2'
  else if k = 3 then '3' else if k = 4 then '4' else if k = 5 then '5'
  else if k = 6 then '6' else if k = 7 then '7' else if k = 8 then '8' else '9'

/-- Two-digit zero-padded decimal, for values below 100. -/
def pad2Chars (n : Nat) : List Char := [digitChar (n / 10 % 10), digitChar (n % 10)]

/-- Four-digit zero-padded decimal, for values below 10000. -/
def pad4Chars (n : Nat) : List Char :=
  [digitChar (n / 1000 % 10), digitChar (n / 100 % 10),
   digitChar (n / 10 % 10), digitChar (n % 10)]

/-- datetime.now().strftime("%Y%m%d_%H%M%S"). -/
def strftime_ts (d : DateTime) : String :=
  String.mk (pad4Chars d.year ++ pad2Chars d.month ++ pad2Chars d.day ++ ['_'] ++
             pad2Chars d.hour ++ pad2Chars d.minute ++ pad2Chars d.second)

/-- Lines 50-55: basename of the URL path; if that is empty or its
extension is not an allowed image extension, synthesize
image_(timestamp).jpg. -/
def derive_filename (url : String) (now : DateTime) : String :=
  let filename := basename (urlparse_path url)
  if filename = "" ∨ has_allowed_ext filename = false then
    "image_" ++ strftime_ts now ++ ".jpg"
  else filename

/- ---------------- fetch_and_save_image (lines 24-108) ----------------- -/

/-- Outcome of the requests.get call of line 41 (after raise_for_status
classification the response case still carries its status). -/
inductive FetchOutcome where
  | connectionError
  | timeoutError
  | requestError
  | response (status : Nat) (contentType : Option String) (body : String)
  deriving DecidableEq, Repr

/-- Exceptions that can escape modelled code. -/
inductive PyErr where
  | unboundLocalError
  | permissionError
  deriving DecidableEq, Repr

/-- Injected failures of the OS primitives whose errors the script
handles: os.makedirs (line 58), os.rename (line 78) and os.remove of the
temp file (lines 74 and 106), each raising PermissionError when set. -/
structure Faults where
  makedirsFails : Bool
  renameFails : Bool
  removeFails : Bool
  deriving DecidableEq, Repr

def Faults.noFaults : Faults := ⟨false, false, false⟩

/-- One console line printed by fetch_and_save_image, abstracted to its
kind and interpolated values. -/
inductive Msg where
  | connectionFailed (url : String)
  | timedOut (url : String)
  | requestFailed (url : String)
  | httpError (url : String)
  | invalidContentType (url contentType : String)
  | skippedDuplicate (url matched : String)
  | fetched (filename : String)
  | savedTo (path : String)
  | permissionDenied (url path : String)
  deriving DecidableEq, Repr

/-- A state-changing filesystem operation performed inside the target
directory, recorded in execution order. -/
inductive FsOp where
  | write (name content : String)
  | rename (src dst : String)
  | remove (name : String)
  deriving DecidableEq, Repr

/-- Result of one fetch_and_save_image call: the returned Bool or the
escaped exception, the final directory contents, the console lines and
the filesystem trace. -/
structure CallResult where
  result : Except PyErr Bool
  fs : Fs
  msgs : List Msg
  trace : List FsOp
  deriving Repr

/-- State of the call just before the finally block runs: pending return
value or in-flight exception (after the except clauses), the binding
state of the temp_path variable, directory contents, console lines and
trace so far. -/
structure BodyResult where
  outcome : Except PyErr Bool
  tempBound : Option String
  fs : Fs
  msgs : List Msg
  trace : List FsOp
  deriving Repr

/-- Lines 70-75: scan the directory listing; the first entry that is not
the temp file itself and whose recomputed hash equals new_hash
short-circuits.  fsAll is the directory the per-entry get_file_hash calls
read from; the final list argument is the os.listdir enumeration. -/
def find_duplicate (sha256 : String → String) (fsAll : Fs) (directory temp_path : String)
    (new_hash : Option String) : List (String × String) → Option String
  | [] => Option.none
  | (name, _) :: rest =>
      if pjoin directory name ≠ temp_path ∧ get_file_hash sha256 fsAll name = new_hash then
        some name
      else find_duplicate sha256 fsAll directory temp_path new_hash rest

/-- Lines 36-101: the try suite with its except clauses applied, stopping
just before the finally block. -/
def fetch_body (sha256 : String → String) (url : String) (resp : FetchOutcome)
    (now : DateTime) (faults : Faults) (directory : String) (fs : Fs) : BodyResult :=
  match resp with
  | FetchOutcome.connectionError =>
      -- line 87: except ConnectionError prints and returns False
      ⟨Except.ok false, Option.none, fs, [Msg.connectionFailed url], []⟩
  | FetchOutcome.timeoutError =>
      ⟨Except.ok false, Option.none, fs, [Msg.timedOut url], []⟩
  | FetchOutcome.requestError =>
      ⟨Except.ok false, Option.none, fs, [Msg.requestFailed url], []⟩
  | FetchOutcome.response status contentType body =>
      -- line 42: raise_for_status raises HTTPError for 4xx and 5xx
      if 400 ≤ status ∧ status < 600 then
        ⟨Except.ok false, Option.none, fs, [Msg.httpError url], []⟩
      else
        -- line 45: response.headers.get("Content-Type", "")
        let content_type := contentType.getD ""
        if is_valid_image content_type = false then
          ⟨Except.ok false, Option.none, fs, [Msg.invalidContentType url content_type], []⟩
        else
          let filename := derive_filename url now
          if faults.makedirsFails then
            -- PermissionError from makedirs; its handler reads file_path,
            -- unbound here, so the handler raises UnboundLocalError
            -- before printing anything
            ⟨Except.error PyErr.unboundLocalError, Option.none, fs, [], []⟩
          else
            let file_path := pjoin directory filename
            let temp_name := filename ++ ".tmp"
            let temp_path := pjoin directory temp_name
            let fs1 := writeFile fs temp_name body
            let new_hash := get_file_hash sha256 fs1 temp_name
            match find_duplicate sha256 fs1 directory temp_path new_hash fs1 with
            | some matched =>
                if faults.removeFails then
                  -- line 74: os.remove raises PermissionError, caught at
                  -- line 96 with file_path bound; returns False
                  ⟨Except.ok false, some temp_name, fs1,
                    [Msg.skippedDuplicate url matched, Msg.permissionDenied url file_path],
                    [FsOp.write temp_name body]⟩
                else
                  ⟨Except.ok false, some temp_name, removeFile fs1 temp_name,
                    [Msg.skippedDuplicate url matched],
                    [FsOp.write temp_name body, FsOp.remove temp_name]⟩
            | Option.none =>
                if faults.renameFails then
                  -- line 78: os.rename raises PermissionError, caught at
                  -- line 96 with file_path bound; returns False
                  ⟨Except.ok false, some temp_name, fs1,
                    [Msg.permissionDenied url file_path],
                    [FsOp.write temp_name body]⟩
                else
                  ⟨Except.ok true, some temp_name,
                    writeFile (removeFile fs1 temp_name) filename body,
                    [Msg.fetched filename, Msg.savedTo file_path],
                    [FsOp.write temp_name body, FsOp.rename temp_name filename]⟩

/-- Lines 102-108: the finally block.  Reading temp_path while it is
unbound raises UnboundLocalError, which replaces any pending return value
or exception; otherwise the temp file, when still present, is removed
best-effort with failures swallowed. -/
def run_finally (faults : Faults) (b : BodyResult) : CallResult :=
  match b.tempBound with
  | Option.none =>
      ⟨Except.error PyErr.unboundLocalError, b.fs, b.msgs, b.trace⟩
  | some temp_name =>
      if (b.fs.lookup temp_name).isSome then
        if faults.removeFails then
          ⟨b.outcome, b.fs, b.msgs, b.trace⟩
        else
          ⟨b.outcome, removeFile b.fs temp_name, b.msgs, b.trace ++ [FsOp.remove temp_name]⟩
      else ⟨b.outcome, b.fs, b.msgs, b.trace⟩

/-- Lines 24-108: fetch_and_save_image, as the try suite followed by the
finally block. -/
def fetch_and_save_image (sha256 : String → String) (url : String) (resp : FetchOutcome)
    (now : DateTime) (faults : Faults) (directory : String) (fs : Fs) : CallResult :=
  run_finally faults (fetch_body sha256 url resp now faults directory fs)

/- ---------------- main (lines 110-142) ------------------------------- -/

/-- Line 131: consuming the executor.map iterator re-raises the first
exception stored in a result; later results are then never read. -/
def collect_results : List (Except PyErr Bool) → Except PyErr (List Bool)
  | [] => Except.ok []
  | Except.ok b :: rest => (collect_results rest).map (fun l => b :: l)
  | Except.error e :: _ => Except.error e

/-- Line 134: successes = sum(1 for result in results if result). -/
def count_successes (results : List Bool) : Nat := (results.filter id).length

/-- Lines 134-137: the closing summary print of main. -/
def summary_line (urls : List String) (results : List Bool) : String :=
  let successes := count_successes results
  if successes > 0 then
    "\nConnection strengthened. Community enriched. (" ++ toString successes ++ "/"
      ++ toString urls.length ++ " images fetched successfully)"
  else
    "\nConnection attempt failed. Please try again."

/- ---------------- Derived notions used by the claims ------------------ -/

/-- The directory listing has pairwise distinct file names. -/
def keysNodup (fs : Fs) : Prop := (fs.map Prod.fst).Nodup

/-- No two listed files have equal content hashes. -/
def HashUnique (sha256 : String → String) (fs : Fs) : Prop :=
  fs.Pairwise (fun a b => sha256 a.2 ≠ sha256 b.2)

def isDigitChar (c : Char) : Bool := ('0' ≤ c && c ≤ '9')

/-- Recognizer for names of the shape image_YYYYMMDD_HHMMSS.jpg: the
literal prefix image_, eight digits, an underscore, six digits and the
literal suffix .jpg, 25 characters in all. -/
def timestamp_name_pattern (s : String) : Bool :=
  let l := s.data
  decide (l.length = 25 ∧
    l.take 6 = "image_".data ∧
    (∀ c ∈ (l.drop 6).take 8, isDigitChar c = true) ∧
    (l.drop 14).take 1 = ['_'] ∧
    (∀ c ∈ (l.drop 15).take 6, isDigitChar c = true) ∧
    l.drop 21 = ".jpg".data)

/- ---------------- Association-list lemmas ----------------------------- -/

theorem string_data_inj : ∀ {s t : String}, s.data = t.data → s = t
  | ⟨_⟩, ⟨_⟩, h => congrArg String.mk h

theorem pjoin_inj {d a b : String} (h : pjoin d a = pjoin d b) : a = b := by
  unfold pjoin at h
  apply string_data_inj
  have h2 := congrArg String.data h
  simpa using h2

theorem lookup_removeFile_self (fs : Fs) (k : String) :
    (removeFile fs k).lookup k = Option.none := by
  induction fs with
  | nil => rfl
  | cons e rest ih =>
      rcases e with ⟨a, b⟩
      by_cases he : a = k
      · simpa [removeFile, he] using ih
      · have hk : (k == a) = false := by
          simpa using fun h : k = a => he h.symm
        simpa [removeFile, he, List.lookup, hk] using ih

theorem lookup_append_aux (l1 l2 : Fs) (k : String) :
    (l1 ++ l2).lookup k =
      match l1.lookup k with
      | some v => some v
      | Option.none => l2.lookup k := by
  induction l1 with
  | nil => rfl
  | cons e rest ih =>
      rcases e with ⟨a, b⟩
      cases hk : (k == a) with
      | true => simp [List.lookup, hk]
      | false => simpa [List.lookup, hk] using ih

theorem lookup_writeFile_self (fs : Fs) (k v : String) :
    (writeFile fs k v).lookup k = some v := by
  unfold writeFile
  rw [lookup_append_aux, lookup_removeFile_self]
  simp [List.lookup]

theorem removeFile_sublist (fs : Fs) (k : String) : (removeFile fs k).Sublist fs :=
  List.filter_sublist fs

theorem mem_removeFile {fs : Fs} {k : String} {e : String × String} :
    e ∈ removeFile fs k ↔ e ∈ fs ∧ e.1 ≠ k := by
  simp [removeFile]

theorem removeFile_append (l1 l2 : Fs) (k : String) :
    removeFile (l1 ++ l2) k = removeFile l1 k ++ removeFile l2 k := by
  simp [removeFile]

theorem removeFile_idem (fs : Fs) (k : String) :
    removeFile (removeFile fs k) k = removeFile fs k := by
  simp [removeFile, List.filter_filter]

theorem removeFile_writeFile (fs : Fs) (k v : String) :
    removeFile (writeFile fs k v) k = removeFile fs k := by
  unfold writeFile
  rw [removeFile_append, removeFile_idem]
  simp [removeFile]

theorem lookup_eq_none_iff (fs : Fs) (k : String) :
    fs.lookup k = Option.none ↔ ∀ e ∈ fs, e.1 ≠ k := by
  induction fs with
  | nil => simp
  | cons e rest ih =>
      rcases e with ⟨a, b⟩
      cases hk : (k == a) with
      | true =>
          have ha : a = k := by
            have := (beq_iff_eq (a := k) (b := a)).mp hk
            exact this.symm
          simp [List.lookup, hk, ha]
      | false =>
          have hne : a ≠ k := by
            intro h
            simp [h] at hk
          simp [List.lookup, hk, hne, ih]

theorem removeFile_eq_self {fs : Fs} {k : String}
    (h : fs.lookup k = Option.none) : removeFile fs k = fs := by
  rw [removeFile, List.filter_eq_self]
  intro e he
  simpa using (lookup_eq_none_iff fs k).mp h e he

theorem mem_lookup_nodup {fs : Fs} {k v : String}
    (hnd : keysNodup fs) (hm : (k, v) ∈ fs) : fs.lookup k = some v := by
  induction fs with
  | nil => cases hm
  | cons e rest ih =>
      rw [keysNodup, List.map_cons, List.nodup_cons] at hnd
      rcases List.mem_cons.mp hm with h | h
      · rw [← h]
        simp [List.lookup]
      · have hk : (k == e.1) = false := by
          have hne : e.1 ≠ k := by
            intro hek
            exact hnd.1 (hek ▸ (List.mem_map.mpr ⟨(k, v), h, rfl⟩))
          simpa using fun hh : k = e.1 => hne hh.symm
        simpa [List.lookup, hk] using ih hnd.2 h

theorem keysNodup_removeFile {fs : Fs} (hnd : keysNodup fs) (k : String) :
    keysNodup (removeFile fs k) :=
  ((removeFile_sublist fs k).map Prod.fst).nodup hnd

theorem not_mem_keys_removeFile (fs : Fs) (k : String) :
    k ∉ (removeFile fs k).map Prod.fst := by
  intro h
  rcases List.mem_map.mp h with ⟨e, he, hek⟩
  exact (mem_removeFile.mp he).2 hek

theorem keysNodup_writeFile {fs : Fs} (hnd : keysNodup fs) (k v : String) :
    keysNodup (writeFile fs k v) := by
  unfold writeFile keysNodup
  rw [List.map_append, List.nodup_append]
  refine ⟨keysNodup_removeFile hnd k, List.nodup_singleton _, ?_⟩
  intro a ha hb
  simp at hb
  exact not_mem_keys_removeFile fs k (hb ▸ ha)

theorem find_duplicate_eq_none_iff (sha256 : String → String) (fsAll : Fs)
    (directory temp_path : String) (new_hash : Option String) (entries : Fs) :
    find_duplicate sha256 fsAll directory temp_path new_hash entries = Option.none ↔
      ∀ e ∈ entries,
        pjoin directory e.1 = temp_path ∨ get_file_hash sha256 fsAll e.1 ≠ new_hash := by
  induction entries with
  | nil => simp [find_duplicate]
  | cons e rest ih =>
      obtain ⟨name, content⟩ := e
      by_cases hc : pjoin directory name ≠ temp_path ∧
          get_file_hash sha256 fsAll name = new_hash
      · simp only [find_duplicate, if_pos hc]
        constructor
        · intro h; cases h
        · intro h
          rcases h (name, content) (List.mem_cons_self _ _) with h1 | h1
          · exact absurd h1 hc.1
          · exact absurd hc.2 h1
      · simp only [find_duplicate, if_neg hc]
        rw [ih]
        constructor
        · intro h f hf
          rcases List.mem_cons.mp hf with h1 | h1
          · rw [h1]
            by_cases hp : pjoin directory name = temp_path
            · exact Or.inl hp
            · refine Or.inr fun hh => hc ⟨hp, hh⟩
          · exact h f h1
        · intro h f hf
          exact h f (List.mem_cons_of_mem _ hf)

/- ---------------- Claim theorems -------------------------------------- -/

/-- C9: is_valid_image accepts a header value iff it is literally one of
the four allow-listed strings; values with media-type parameters, other
letter case, or surrounding whitespace are rejected. -/
theorem claim_C9_content_type_exact_match :
    (∀ ct : String, is_valid_image ct = true ↔
      (ct = "image/jpeg" ∨ ct = "image/png" ∨ ct = "image/gif" ∨ ct = "image/bmp")) ∧
    is_valid_image "image/jpeg; charset=utf-8" = false ∧
    is_valid_image "IMAGE/JPEG" = false ∧
    is_valid_image " image/jpeg" = false := by
  refine ⟨fun ct => ?_, by decide, by decide, by decide⟩
  simp [is_valid_image, valid_types]

/-- C9 witness: a concrete allow-listed value is accepted. -/
theorem claim_C9_witness : is_valid_image "image/png" = true :=
  (claim_C9_content_type_exact_match.1 "image/png").2 (Or.inr (Or.inl rfl))

/-- C10: get_file_hash returns None on a missing file instead of raising,
and None never equals some hex digest. -/
theorem claim_C10_get_file_hash_total_on_missing (sha256 : String → String) (fs : Fs)
    (name : String) (h : fs.lookup name = Option.none) :
    get_file_hash sha256 fs name = Option.none ∧
      ∀ s : String, get_file_hash sha256 fs name ≠ some s := by
  unfold get_file_hash
  rw [h]
  exact ⟨rfl, fun s hc => by cases hc⟩

/-- C10 witness at a concrete directory and missing name. -/
theorem claim_C10_witness :
    get_file_hash (fun s => s) [("a.png", "X")] "gone.png" = Option.none :=
  (claim_C10_get_file_hash_total_on_missing (fun s => s) [("a.png", "X")] "gone.png" rfl).1

/-- C1 (code bug evidence): on an HTTP error status, and likewise on a
transport error, fetch_and_save_image does not return False: the finally
block reads the unbound temp_path and the call raises UnboundLocalError;
consuming such a result in main aborts the batch summary. -/
theorem claim_C1_error_paths_raise :
    (fetch_and_save_image (fun s => s) "http://example.com/a.png"
        (FetchOutcome.response 404 (some "image/png") "B")
        ⟨2025, 1, 1, 0, 0, 0⟩ Faults.noFaults "Fetched_Images" []).result
      = Except.error PyErr.unboundLocalError ∧
    (fetch_and_save_image (fun s => s) "http://example.com/a.png"
        FetchOutcome.connectionError
        ⟨2025, 1, 1, 0, 0, 0⟩ Faults.noFaults "Fetched_Images" []).result
      = Except.error PyErr.unboundLocalError ∧
    collect_results [Except.error PyErr.unboundLocalError, Except.ok true]
      = Except.error PyErr.unboundLocalError :=
  ⟨rfl, rfl, rfl⟩

/-- C5 (code bug evidence): on HTTP 200 with a non-allow-listed content
type no file is created and the invalid-content-type line is printed, but
the call raises UnboundLocalError from the finally block instead of
returning the documented False. -/
theorem claim_C5_invalid_content_type_raises :
    (fetch_and_save_image (fun s => s) "http://example.com/a.png"
        (FetchOutcome.response 200 (some "text/html") "B")
        ⟨2025, 1, 1, 0, 0, 0⟩ Faults.noFaults "Fetched_Images" []).result
      = Except.error PyErr.unboundLocalError ∧
    (fetch_and_save_image (fun s => s) "http://example.com/a.png"
        (FetchOutcome.response 200 (some "text/html") "B")
        ⟨2025, 1, 1, 0, 0, 0⟩ Faults.noFaults "Fetched_Images" []).fs = [] ∧
    (fetch_and_save_image (fun s => s) "http://example.com/a.png"
        (FetchOutcome.response 200 Option.none "B")
        ⟨2025, 1, 1, 0, 0, 0⟩ Faults.noFaults "Fetched_Images" []).msgs
      = [Msg.invalidContentType "http://example.com/a.png" ""] :=
  ⟨rfl, rfl, rfl⟩

/-- C4 counterexample: a duplicate hit whose os.remove calls fail leaves
the temp file behind even though the call returns False, refuting the
claim that no temporary file ever remains when the call returns. -/
theorem claim_C4_counterexample :
    (fetch_and_save_image (fun s => s) "http://example.com/b.png"
        (FetchOutcome.response 200 (some "image/png") "X")
        ⟨2025, 1, 1, 0, 0, 0⟩ ⟨false, false, true⟩ "Fetched_Images"
        [("a.png", "X")]).result = Except.ok false ∧
    (fetch_and_save_image (fun s => s) "http://example.com/b.png"
        (FetchOutcome.response 200 (some "image/png") "X")
        ⟨2025, 1, 1, 0, 0, 0⟩ ⟨false, false, true⟩ "Fetched_Images"
        [("a.png", "X")]).fs.lookup "b.png.tmp" = some "X" :=
  ⟨rfl, rfl⟩

/-- C8 counterexample: with zero successes the summary is the fixed
failure message and the 0/1 count appears nowhere in it. -/
theorem claim_C8_counterexample :
    summary_line ["http://example.com/a.png"] [false]
        = "\nConnection attempt failed. Please try again." ∧
    ¬ ("0/1".data <:+: (summary_line ["http://example.com/a.png"] [false]).data) := by
  exact ⟨rfl, by decide⟩

/-- C8 (amended): for a non-empty URL list, when at least one URL
succeeded the summary line carries the successes/total count (it occurs
as a substring); when none succeeded the summary is the fixed failure
message with no count. -/
theorem claim_C8_summary_line (urls : List String) (results : List Bool)
    (hne : urls ≠ []) :
    (0 < count_successes results →
       summary_line urls results
         = "\nConnection strengthened. Community enriched. ("
             ++ toString (count_successes results) ++ "/" ++ toString urls.length
             ++ " images fetched successfully)" ∧
       (toString (count_successes results) ++ "/" ++ toString urls.length).data
         <:+: (summary_line urls results).data) ∧
    (count_successes results = 0 →
       summary_line urls results = "\nConnection attempt failed. Please try again.") := by
  constructor
  · intro hpos
    have heq : summary_line urls results
        = "\nConnection strengthened. Community enriched. ("
            ++ toString (count_successes results) ++ "/" ++ toString urls.length
            ++ " images fetched successfully)" := by
      simp only [summary_line]
      rw [if_pos hpos]
    refine ⟨heq, ?_⟩
    rw [heq]
    refine ⟨"\nConnection strengthened. Community enriched. (".data,
            " images fetched successfully)".data, ?_⟩
    simp [String.data_append]
  · intro hzero
    simp only [summary_line]
    rw [if_neg (by omega)]

/-- C8 witness: a mixed run produces the counted summary. -/
theorem claim_C8_witness :
    summary_line ["u", "v"] [true, false]
      = "\nConnection strengthened. Community enriched. (1/2 images fetched successfully)" := by
  have h := (claim_C8_summary_line ["u", "v"] [true, false] (by simp)).1 (by decide)
  exact h.1.trans rfl

/- ---------------- Filename lemmas (towards C7, C3, C4, C6) ------------ -/

theorem isDigit_digitChar (k : Nat) : isDigitChar (digitChar k) = true := by
  unfold digitChar
  split_ifs <;> decide

theorem strftime_ts_length (d : DateTime) : (strftime_ts d).length = 15 := by
  simp [strftime_ts, String.length, pad4Chars, pad2Chars]

theorem append_tmp_ne (s : String) : s ≠ s ++ ".tmp" := by
  intro h
  have hl := congrArg String.length h
  rw [String.length_append] at hl
  have h4 : ".tmp".length = 4 := rfl
  rw [h4] at hl
  omega

theorem timestamp_pattern_of_strftime (d : DateTime) :
    timestamp_name_pattern ("image_" ++ strftime_ts d ++ ".jpg") = true := by
  have hdata : ("image_" ++ strftime_ts d ++ ".jpg").data
      = 'i' :: 'm' :: 'a' :: 'g' :: 'e' :: '_' ::
        (pad4Chars d.year ++ (pad2Chars d.month ++ (pad2Chars d.day ++ (['_'] ++
         (pad2Chars d.hour ++ (pad2Chars d.minute ++
          (pad2Chars d.second ++ ['.', 'j', 'p', 'g']))))))) := by
    simp [String.data_append, strftime_ts]
  simp only [timestamp_name_pattern]
  rw [hdata]
  simp [pad4Chars, pad2Chars, isDigit_digitChar]

/-- The two branches of the filename derivation never produce a name with
a .tmp suffix, so a derived name never collides with a temp-file name. -/
theorem derive_filename_ne_tmp (url : String) (n1 n2 : DateTime) :
    derive_filename url n1 ≠ derive_filename url n2 ++ ".tmp" := by
  unfold derive_filename
  by_cases hc : basename (urlparse_path url) = "" ∨
      has_allowed_ext (basename (urlparse_path url)) = false
  · rw [if_pos hc, if_pos hc]
    intro h
    have hl := congrArg String.length h
    have h6 : "image_".length = 6 := rfl
    have hj : ".jpg".length = 4 := rfl
    have h4 : ".tmp".length = 4 := rfl
    simp only [String.length_append, strftime_ts_length, h6, hj, h4] at hl
    omega
  · rw [if_neg hc, if_neg hc]
    exact append_tmp_ne _

/-- C7: when the basename of the URL path is empty or lacks an allowed
image extension the derived filename is image_ followed by the
second-resolution timestamp and .jpg, matching image_YYYYMMDD_HHMMSS.jpg;
otherwise the basename is used unchanged. -/
theorem claim_C7_filename_fallback (url : String) (now : DateTime) (hv : now.Valid) :
    ((basename (urlparse_path url) = "" ∨
        has_allowed_ext (basename (urlparse_path url)) = false) →
       derive_filename url now = "image_" ++ strftime_ts now ++ ".jpg" ∧
       timestamp_name_pattern (derive_filename url now) = true) ∧
    (¬ (basename (urlparse_path url) = "" ∨
        has_allowed_ext (basename (urlparse_path url)) = false) →
       derive_filename url now = basename (urlparse_path url)) := by
  constructor
  · intro hc
    have hd : derive_filename url now = "image_" ++ strftime_ts now ++ ".jpg" := by
      unfold derive_filename
      rw [if_pos hc]
    exact ⟨hd, hd ▸ timestamp_pattern_of_strftime now⟩
  · intro hc
    unfold derive_filename
    rw [if_neg hc]

/-- C7 witness: a URL with no usable extension falls back to the
timestamp name. -/
theorem claim_C7_witness :
    derive_filename "https://example.com/download" ⟨2025, 10, 12, 9, 30, 5⟩
        = "image_" ++ strftime_ts ⟨2025, 10, 12, 9, 30, 5⟩ ++ ".jpg" ∧
    timestamp_name_pattern
        (derive_filename "https://example.com/download" ⟨2025, 10, 12, 9, 30, 5⟩) = true :=
  (claim_C7_filename_fallback "https://example.com/download" ⟨2025, 10, 12, 9, 30, 5⟩
    (by decide)).1 (by decide)

/- ---------------- More lookup lemmas (towards C4, C2, C3) ------------- -/

theorem lookup_removeFile_of_ne {fs : Fs} {k k' : String} (h : k' ≠ k) :
    (removeFile fs k).lookup k' = fs.lookup k' := by
  induction fs with
  | nil => rfl
  | cons e rest ih =>
      rcases e with ⟨a, b⟩
      by_cases ha : a = k
      · have hk : (k' == k) = false := by simpa using h
        simpa [removeFile, ha, List.lookup, hk] using ih
      · cases hk : (k' == a) with
        | true => simp [removeFile, ha, List.lookup, hk]
        | false => simpa [removeFile, ha, List.lookup, hk] using ih

theorem lookup_singleton_ne (v : String) {k k' : String} (h : k' ≠ k) :
    List.lookup k' [(k, v)] = Option.none := by
  have hk : (k' == k) = false := by simpa using h
  simp [List.lookup, hk]

theorem lookup_writeFile_of_ne {fs : Fs} {k v k' : String} (h : k' ≠ k) :
    (writeFile fs k v).lookup k' = fs.lookup k' := by
  unfold writeFile
  rw [lookup_append_aux, lookup_removeFile_of_ne h]
  cases hfs : fs.lookup k' with
  | none => simpa using lookup_singleton_ne v h
  | some w => rfl

/-- C4 (amended): provided the best-effort removals succeed (no injected
os.remove failure) and no stale file already sits at the temp path, no
temporary file remains when fetch_and_save_image completes, on every exit
path: success, duplicate, caught error or escaped exception. -/
theorem claim_C4_amended_cleanup (sha256 : String → String) (url : String)
    (resp : FetchOutcome) (now : DateTime) (faults : Faults) (directory : String)
    (fs : Fs) (hrm : faults.removeFails = false)
    (h0 : fs.lookup (derive_filename url now ++ ".tmp") = Option.none) :
    (fetch_and_save_image sha256 url resp now faults directory fs).fs.lookup
        (derive_filename url now ++ ".tmp") = Option.none := by
  cases resp with
  | connectionError => simpa [fetch_and_save_image, fetch_body, run_finally] using h0
  | timeoutError => simpa [fetch_and_save_image, fetch_body, run_finally] using h0
  | requestError => simpa [fetch_and_save_image, fetch_body, run_finally] using h0
  | response status contentType body =>
      simp only [fetch_and_save_image, fetch_body]
      split
      · simpa [run_finally] using h0
      · split
        · simpa [run_finally] using h0
        · split
          · simpa [run_finally] using h0
          · rw [hrm]
            split
            · -- duplicate found: the in-loop remove succeeded
              simp [run_finally, lookup_removeFile_self]
            · split
              · -- rename failed: the finally block removes the temp file
                simp [run_finally, hrm, lookup_writeFile_self, lookup_removeFile_self]
              · -- success: the temp file was renamed away
                have hne : derive_filename url now ++ ".tmp" ≠ derive_filename url now :=
                  fun h => append_tmp_ne _ h.symm
                simp [run_finally, lookup_writeFile_of_ne hne, lookup_removeFile_self]

/-- C4 witness: a successful concrete run leaves no temp file. -/
theorem claim_C4_witness :
    (fetch_and_save_image (fun s => s) "http://example.com/a.png"
        (FetchOutcome.response 200 (some "image/png") "B")
        ⟨2025, 1, 1, 0, 0, 0⟩ Faults.noFaults "Fetched_Images" []).fs.lookup
        (derive_filename "http://example.com/a.png" ⟨2025, 1, 1, 0, 0, 0⟩ ++ ".tmp")
      = Option.none :=
  claim_C4_amended_cleanup (fun s => s) "http://example.com/a.png"
    (FetchOutcome.response 200 (some "image/png") "B") ⟨2025, 1, 1, 0, 0, 0⟩
    Faults.noFaults "Fetched_Images" [] rfl rfl

/-- The finally block can only append a removal to the trace. -/
theorem mem_run_finally_trace {faults : Faults} {b : BodyResult} {op : FsOp}
    (h : op ∈ (run_finally faults b).trace) :
    op ∈ b.trace ∨ ∃ x, op = FsOp.remove x := by
  unfold run_finally at h
  cases hb : b.tempBound with
  | none =>
      rw [hb] at h
      exact Or.inl h
  | some t =>
      rw [hb] at h
      simp only at h
      by_cases hs : (b.fs.lookup t).isSome = true
      · rw [if_pos hs] at h
        by_cases hr : faults.removeFails = true
        · rw [if_pos hr] at h
          exact Or.inl h
        · rw [if_neg hr] at h
          simp only [List.mem_append] at h
          rcases h with h | h
          · exact Or.inl h
          · simp only [List.mem_singleton] at h
            exact Or.inr ⟨t, h⟩
      · rw [if_neg hs] at h
        exact Or.inl h

/-- Every write recorded by the try suite targets the temp name. -/
theorem fetch_body_write_mem {sha256 : String → String} {url : String}
    {resp : FetchOutcome} {now : DateTime} {faults : Faults} {directory : String}
    {fs : Fs} {p c : String}
    (hm : FsOp.write p c ∈ (fetch_body sha256 url resp now faults directory fs).trace) :
    p = derive_filename url now ++ ".tmp" := by
  cases resp with
  | connectionError => simp [fetch_body] at hm
  | timeoutError => simp [fetch_body] at hm
  | requestError => simp [fetch_body] at hm
  | response status contentType body =>
      simp only [fetch_body] at hm
      split at hm
      · simp at hm
      · split at hm
        · simp at hm
        · split at hm
          · simp at hm
          · split at hm
            · split at hm
              · simp at hm
                exact hm.1
              · simp at hm
                exact hm.1
            · split at hm
              · simp at hm
                exact hm.1
              · simp at hm
                exact hm.1

/-- Every rename recorded by the try suite moves the temp name to the
final name, and only after the duplicate scan came back empty. -/
theorem fetch_body_rename_mem {sha256 : String → String} {url : String}
    {resp : FetchOutcome} {now : DateTime} {faults : Faults} {directory : String}
    {fs : Fs} {a b : String}
    (hm : FsOp.rename a b ∈ (fetch_body sha256 url resp now faults directory fs).trace) :
    a = derive_filename url now ++ ".tmp" ∧ b = derive_filename url now ∧
    ∃ status contentType body,
      resp = FetchOutcome.response status contentType body ∧
      find_duplicate sha256 (writeFile fs (derive_filename url now ++ ".tmp") body)
        directory (pjoin directory (derive_filename url now ++ ".tmp"))
        (get_file_hash sha256 (writeFile fs (derive_filename url now ++ ".tmp") body)
          (derive_filename url now ++ ".tmp"))
        (writeFile fs (derive_filename url now ++ ".tmp") body) = Option.none := by
  cases resp with
  | connectionError => simp [fetch_body] at hm
  | timeoutError => simp [fetch_body] at hm
  | requestError => simp [fetch_body] at hm
  | response status contentType body =>
      simp only [fetch_body] at hm
      split at hm
      · simp at hm
      · split at hm
        · simp at hm
        · split at hm
          · simp at hm
          · split at hm
            · split at hm
              · simp at hm
              · simp at hm
            · split at hm
              · simp at hm
              · rename_i hfd _
                simp at hm
                exact ⟨hm.1, hm.2, status, contentType, body, rfl, hfd⟩

/-- C6: in every execution, every filesystem write targets the temp name
(the final name with the .tmp suffix appended), never the final name; any
rename moves that temp name to the final name; and a rename happens only
in a response run whose duplicate scan, over the directory with the temp
file written, found no match. -/
theorem claim_C6_write_temp_then_rename (sha256 : String → String) (url : String)
    (resp : FetchOutcome) (now : DateTime) (faults : Faults) (directory : String)
    (fs : Fs) :
    (∀ p c, FsOp.write p c ∈
        (fetch_and_save_image sha256 url resp now faults directory fs).trace →
        p = derive_filename url now ++ ".tmp" ∧ p ≠ derive_filename url now) ∧
    (∀ a b, FsOp.rename a b ∈
        (fetch_and_save_image sha256 url resp now faults directory fs).trace →
        a = derive_filename url now ++ ".tmp" ∧ b = derive_filename url now ∧
        ∃ status contentType body,
          resp = FetchOutcome.response status contentType body ∧
          find_duplicate sha256 (writeFile fs (derive_filename url now ++ ".tmp") body)
            directory (pjoin directory (derive_filename url now ++ ".tmp"))
            (get_file_hash sha256
              (writeFile fs (derive_filename url now ++ ".tmp") body)
              (derive_filename url now ++ ".tmp"))
            (writeFile fs (derive_filename url now ++ ".tmp") body) = Option.none) := by
  have htmp : derive_filename url now ++ ".tmp" ≠ derive_filename url now :=
    fun h => append_tmp_ne _ h.symm
  constructor
  · intro p c hm
    rcases mem_run_finally_trace hm with hm | ⟨x, hx⟩
    · have hp := fetch_body_write_mem hm
      exact ⟨hp, hp ▸ htmp⟩
    · simp at hx
  · intro a b hm
    rcases mem_run_finally_trace hm with hm | ⟨x, hx⟩
    · exact fetch_body_rename_mem hm
    · simp at hx

/-- C6 witness: a concrete successful run performs exactly the modelled
write-then-rename, and the theorem applies to its rename event. -/
theorem claim_C6_witness :
    "a.png.tmp" = derive_filename "http://example.com/a.png" ⟨2025, 1, 1, 0, 0, 0⟩ ++ ".tmp" ∧
    "a.png" = derive_filename "http://example.com/a.png" ⟨2025, 1, 1, 0, 0, 0⟩ := by
  have h := (claim_C6_write_temp_then_rename (fun s => s) "http://example.com/a.png"
      (FetchOutcome.response 200 (some "image/png") "B")
      ⟨2025, 1, 1, 0, 0, 0⟩ Faults.noFaults "Fetched_Images" []).2
      "a.png.tmp" "a.png" (by decide)
  exact ⟨h.1, h.2.1⟩

/-- Hash uniqueness restricts to any sublist of the directory. -/
theorem HashUnique.sublist {sha256 : String → String} {l1 l2 : Fs}
    (hs : l1.Sublist l2) (hu : HashUnique sha256 l2) : HashUnique sha256 l1 :=
  List.Pairwise.sublist hs hu

/-- C2: a sequential fetch_and_save_image call whose best-effort removals
succeed preserves pairwise distinctness of the content hashes of the
directory: a new file is only promoted when the scan found no entry with
the same hash, and on a hit the temp file is deleted and nothing is
stored. -/
theorem claim_C2_hash_unique_preserved (sha256 : String → String) (url : String)
    (resp : FetchOutcome) (now : DateTime) (faults : Faults) (directory : String)
    (fs : Fs) (hnd : keysNodup fs) (hu : HashUnique sha256 fs)
    (hrm : faults.removeFails = false) :
    HashUnique sha256 (fetch_and_save_image sha256 url resp now faults directory fs).fs := by
  cases resp with
  | connectionError => simpa [fetch_and_save_image, fetch_body, run_finally] using hu
  | timeoutError => simpa [fetch_and_save_image, fetch_body, run_finally] using hu
  | requestError => simpa [fetch_and_save_image, fetch_body, run_finally] using hu
  | response status contentType body =>
      have htmp : (derive_filename url now ++ ".tmp") ≠ derive_filename url now :=
        fun h => append_tmp_ne _ h.symm
      simp only [fetch_and_save_image, fetch_body]
      split
      · simpa [run_finally] using hu
      · split
        · simpa [run_finally] using hu
        · split
          · simpa [run_finally] using hu
          · split
            · -- duplicate: the directory only shrinks
              rw [hrm]
              simp only [Bool.false_eq_true, if_false]
              simp only [run_finally, lookup_removeFile_self, Option.isSome_none,
                Bool.false_eq_true, if_false]
              rw [removeFile_writeFile]
              exact HashUnique.sublist (removeFile_sublist fs _) hu
            · split
              · -- rename failed: the finally removal restores the directory
                simp only [run_finally, lookup_writeFile_self, Option.isSome_some, if_true,
                  hrm, Bool.false_eq_true, if_false]
                rw [removeFile_writeFile]
                exact HashUnique.sublist (removeFile_sublist fs _) hu
              · -- success: the promoted file has a hash unseen in the scan
                rename_i hfd hrn
                have hnd1 : keysNodup
                    (writeFile fs (derive_filename url now ++ ".tmp") body) :=
                  keysNodup_writeFile hnd _ _
                simp only [run_finally, lookup_writeFile_of_ne htmp,
                  lookup_removeFile_self, Option.isSome_none, Bool.false_eq_true, if_false]
                rw [removeFile_writeFile]
                have hall := (find_duplicate_eq_none_iff sha256
                  (writeFile fs (derive_filename url now ++ ".tmp") body) directory
                  (pjoin directory (derive_filename url now ++ ".tmp"))
                  (get_file_hash sha256
                    (writeFile fs (derive_filename url now ++ ".tmp") body)
                    (derive_filename url now ++ ".tmp"))
                  (writeFile fs (derive_filename url now ++ ".tmp") body)).mp hfd
                unfold writeFile HashUnique
                rw [List.pairwise_append]
                refine ⟨?_, List.pairwise_singleton _ _, ?_⟩
                · exact HashUnique.sublist
                    ((removeFile_sublist _ _).trans (removeFile_sublist fs _)) hu
                · intro x hx y hy
                  simp only [List.mem_singleton] at hy
                  subst hy
                  have hx1 := mem_removeFile.mp hx
                  have hxt := mem_removeFile.mp hx1.1
                  have hxin : x ∈ writeFile fs (derive_filename url now ++ ".tmp") body :=
                    List.mem_append_left _ hx1.1
                  rcases hall x hxin with hp | hh
                  · exact absurd (pjoin_inj hp) hxt.2
                  · intro hcontra
                    apply hh
                    have hlx : (writeFile fs (derive_filename url now ++ ".tmp")
                        body).lookup x.1 = some x.2 :=
                      mem_lookup_nodup hnd1 (by simpa using hxin)
                    have hlt : (writeFile fs (derive_filename url now ++ ".tmp")
                        body).lookup (derive_filename url now ++ ".tmp") = some body :=
                      lookup_writeFile_self fs _ body
                    unfold get_file_hash
                    rw [hlx, hlt]
                    show some (sha256 x.2) = some (sha256 body)
                    exact congrArg some hcontra

/-- C2 witness at a concrete hash-unique directory. -/
theorem claim_C2_witness :
    HashUnique (fun s => s)
      (fetch_and_save_image (fun s => s) "http://example.com/b.png"
        (FetchOutcome.response 200 (some "image/png") "Y")
        ⟨2025, 1, 1, 0, 0, 0⟩ Faults.noFaults "Fetched_Images" [("a.png", "X")]).fs :=
  claim_C2_hash_unique_preserved (fun s => s) "http://example.com/b.png"
    (FetchOutcome.response 200 (some "image/png") "Y") ⟨2025, 1, 1, 0, 0, 0⟩
    Faults.noFaults "Fetched_Images" [("a.png", "X")]
    (by simp [keysNodup]) (by simp [HashUnique]) rfl

/-- A response run with an allow-listed content type, no failing
primitives and a body hash unseen in the directory promotes the temp
file and returns True. -/
theorem fetch_success_run (sha256 : String → String) (url : String) (status : Nat)
    (contentType : Option String) (body : String) (now : DateTime) (faults : Faults)
    (directory : String) (fs : Fs)
    (hst : ¬ (400 ≤ status ∧ status < 600))
    (hct : is_valid_image (contentType.getD "") = true)
    (hmk : faults.makedirsFails = false)
    (hrn : faults.renameFails = false)
    (hnd : keysNodup fs)
    (hfresh : ∀ e ∈ fs, sha256 e.2 ≠ sha256 body) :
    fetch_and_save_image sha256 url (FetchOutcome.response status contentType body)
        now faults directory fs
      = ⟨Except.ok true,
         writeFile (removeFile fs (derive_filename url now ++ ".tmp"))
           (derive_filename url now) body,
         [Msg.fetched (derive_filename url now),
          Msg.savedTo (pjoin directory (derive_filename url now))],
         [FsOp.write (derive_filename url now ++ ".tmp") body,
          FsOp.rename (derive_filename url now ++ ".tmp") (derive_filename url now)]⟩ := by
  have htmp : (derive_filename url now ++ ".tmp") ≠ derive_filename url now :=
    fun h => append_tmp_ne _ h.symm
  have hnd1 : keysNodup (writeFile fs (derive_filename url now ++ ".tmp") body) :=
    keysNodup_writeFile hnd _ _
  have hfd : find_duplicate sha256
      (writeFile fs (derive_filename url now ++ ".tmp") body) directory
      (pjoin directory (derive_filename url now ++ ".tmp"))
      (get_file_hash sha256 (writeFile fs (derive_filename url now ++ ".tmp") body)
        (derive_filename url now ++ ".tmp"))
      (writeFile fs (derive_filename url now ++ ".tmp") body) = Option.none := by
    rw [find_duplicate_eq_none_iff]
    intro e he
    by_cases hp : pjoin directory e.1
        = pjoin directory (derive_filename url now ++ ".tmp")
    · exact Or.inl hp
    · right
      have het : e.1 ≠ derive_filename url now ++ ".tmp" := fun h => hp (by rw [h])
      have hefs : e ∈ fs := by
        unfold writeFile at he
        rcases List.mem_append.mp he with h | h
        · exact (mem_removeFile.mp h).1
        · exfalso
          simp only [List.mem_singleton] at h
          exact het (by rw [h])
      have hle : (writeFile fs (derive_filename url now ++ ".tmp") body).lookup e.1
          = some e.2 := mem_lookup_nodup hnd1 (by simpa using he)
      have hlt := lookup_writeFile_self fs (derive_filename url now ++ ".tmp") body
      unfold get_file_hash
      rw [hle, hlt]
      show some (sha256 e.2) ≠ some (sha256 body)
      intro hc
      exact hfresh e hefs (Option.some.inj hc)
  simp only [fetch_and_save_image, fetch_body]
  rw [if_neg hst, if_neg (by simp [hct]), if_neg (by simp [hmk]), hfd]
  simp only [hrn, Bool.false_eq_true, if_false, run_finally,
    lookup_writeFile_of_ne htmp, lookup_removeFile_self, Option.isSome_none,
    removeFile_writeFile]

/-- A response run that finds an entry with the same hash removes the
temp file, stores nothing and returns False with a skipped message. -/
theorem fetch_duplicate_run (sha256 : String → String) (url : String) (status : Nat)
    (contentType : Option String) (body : String) (now : DateTime) (faults : Faults)
    (directory : String) (fs : Fs)
    (hst : ¬ (400 ≤ status ∧ status < 600))
    (hct : is_valid_image (contentType.getD "") = true)
    (hmk : faults.makedirsFails = false)
    (hrm : faults.removeFails = false)
    (hnd : keysNodup fs)
    (e : String × String) (he : e ∈ fs)
    (het : e.1 ≠ derive_filename url now ++ ".tmp")
    (hhash : sha256 e.2 = sha256 body) :
    (fetch_and_save_image sha256 url (FetchOutcome.response status contentType body)
        now faults directory fs).result = Except.ok false ∧
    (fetch_and_save_image sha256 url (FetchOutcome.response status contentType body)
        now faults directory fs).fs
      = removeFile fs (derive_filename url now ++ ".tmp") ∧
    ∃ m, (fetch_and_save_image sha256 url (FetchOutcome.response status contentType body)
        now faults directory fs).msgs = [Msg.skippedDuplicate url m] := by
  have hnd1 : keysNodup (writeFile fs (derive_filename url now ++ ".tmp") body) :=
    keysNodup_writeFile hnd _ _
  have hein : e ∈ writeFile fs (derive_filename url now ++ ".tmp") body := by
    unfold writeFile
    exact List.mem_append_left _ (mem_removeFile.mpr ⟨he, het⟩)
  have hne : find_duplicate sha256
      (writeFile fs (derive_filename url now ++ ".tmp") body) directory
      (pjoin directory (derive_filename url now ++ ".tmp"))
      (get_file_hash sha256 (writeFile fs (derive_filename url now ++ ".tmp") body)
        (derive_filename url now ++ ".tmp"))
      (writeFile fs (derive_filename url now ++ ".tmp") body) ≠ Option.none := by
    intro h0
    have hall := (find_duplicate_eq_none_iff sha256
      (writeFile fs (derive_filename url now ++ ".tmp") body) directory
      (pjoin directory (derive_filename url now ++ ".tmp"))
      (get_file_hash sha256 (writeFile fs (derive_filename url now ++ ".tmp") body)
        (derive_filename url now ++ ".tmp"))
      (writeFile fs (derive_filename url now ++ ".tmp") body)).mp h0
    rcases hall e hein with hp | hh
    · exact het (pjoin_inj hp)
    · apply hh
      have hle : (writeFile fs (derive_filename url now ++ ".tmp") body).lookup e.1
          = some e.2 := mem_lookup_nodup hnd1 (by simpa using hein)
      have hlt := lookup_writeFile_self fs (derive_filename url now ++ ".tmp") body
      unfold get_file_hash
      rw [hle, hlt]
      show some (sha256 e.2) = some (sha256 body)
      exact congrArg some hhash
  rcases Option.ne_none_iff_exists'.mp hne with ⟨m, hfd⟩
  simp only [fetch_and_save_image, fetch_body]
  rw [if_neg hst, if_neg (by simp [hct]), if_neg (by simp [hmk]), hfd]
  simp only [hrm, Bool.false_eq_true, if_false, run_finally, lookup_removeFile_self,
    Option.isSome_none, removeFile_writeFile]
  exact ⟨trivial, trivial, m, rfl⟩

/-- C3: fetching the same URL with the same response bytes twice in
sequence: the first call stores the file and returns True; the second
call finds the stored copy by content hash, deletes its temp file,
returns False with a skipped-duplicate message, and leaves the directory
unchanged; exactly one stored file carries the fetched bytes.  The
hypotheses say the first response is storable (allow-listed type, fresh
hash) and that no stale temp file sits at the second temp path. -/
theorem claim_C3_same_fetch_twice (sha256 : String → String) (url : String)
    (status : Nat) (contentType : Option String) (body : String)
    (now1 now2 : DateTime) (directory : String) (fs : Fs)
    (hst : ¬ (400 ≤ status ∧ status < 600))
    (hct : is_valid_image (contentType.getD "") = true)
    (hnd : keysNodup fs)
    (hfresh : ∀ e ∈ fs, sha256 e.2 ≠ sha256 body)
    (hstale : fs.lookup (derive_filename url now2 ++ ".tmp") = Option.none) :
    (fetch_and_save_image sha256 url (FetchOutcome.response status contentType body)
        now1 Faults.noFaults directory fs).result = Except.ok true ∧
    (fetch_and_save_image sha256 url (FetchOutcome.response status contentType body)
        now1 Faults.noFaults directory fs).fs.lookup (derive_filename url now1)
      = some body ∧
    ((fetch_and_save_image sha256 url (FetchOutcome.response status contentType body)
        now1 Faults.noFaults directory fs).fs.filter
          (fun e => e.2 == body)).length = 1 ∧
    (fetch_and_save_image sha256 url (FetchOutcome.response status contentType body)
        now2 Faults.noFaults directory
        (fetch_and_save_image sha256 url (FetchOutcome.response status contentType body)
          now1 Faults.noFaults directory fs).fs).result = Except.ok false ∧
    (fetch_and_save_image sha256 url (FetchOutcome.response status contentType body)
        now2 Faults.noFaults directory
        (fetch_and_save_image sha256 url (FetchOutcome.response status contentType body)
          now1 Faults.noFaults directory fs).fs).fs
      = (fetch_and_save_image sha256 url (FetchOutcome.response status contentType body)
          now1 Faults.noFaults directory fs).fs ∧
    ∃ m, (fetch_and_save_image sha256 url (FetchOutcome.response status contentType body)
        now2 Faults.noFaults directory
        (fetch_and_save_image sha256 url (FetchOutcome.response status contentType body)
          now1 Faults.noFaults directory fs).fs).msgs
      = [Msg.skippedDuplicate url m] := by
  have h1 := fetch_success_run sha256 url status contentType body now1 Faults.noFaults
    directory fs hst hct rfl rfl hnd hfresh
  have hr1fs : (fetch_and_save_image sha256 url
        (FetchOutcome.response status contentType body)
        now1 Faults.noFaults directory fs).fs
      = writeFile (removeFile fs (derive_filename url now1 ++ ".tmp"))
          (derive_filename url now1) body := by
    rw [h1]
  have hndA : keysNodup (removeFile fs (derive_filename url now1 ++ ".tmp")) :=
    keysNodup_removeFile hnd _
  have hnd2 : keysNodup (writeFile (removeFile fs (derive_filename url now1 ++ ".tmp"))
      (derive_filename url now1) body) := keysNodup_writeFile hndA _ _
  have hf1t2 : derive_filename url now1 ≠ derive_filename url now2 ++ ".tmp" :=
    derive_filename_ne_tmp url now1 now2
  have he2 : ((derive_filename url now1, body) : String × String)
      ∈ writeFile (removeFile fs (derive_filename url now1 ++ ".tmp"))
          (derive_filename url now1) body := by
    unfold writeFile
    exact List.mem_append_right _ (by simp)
  have hl2 : (writeFile (removeFile fs (derive_filename url now1 ++ ".tmp"))
      (derive_filename url now1) body).lookup (derive_filename url now2 ++ ".tmp")
      = Option.none := by
    rw [lookup_writeFile_of_ne (Ne.symm hf1t2)]
    by_cases h12 : (derive_filename url now2 ++ ".tmp")
        = (derive_filename url now1 ++ ".tmp")
    · rw [h12, lookup_removeFile_self]
    · rw [lookup_removeFile_of_ne h12]
      exact hstale
  have hdup := fetch_duplicate_run sha256 url status contentType body now2
    Faults.noFaults directory
    (writeFile (removeFile fs (derive_filename url now1 ++ ".tmp"))
      (derive_filename url now1) body)
    hst hct rfl rfl hnd2 (derive_filename url now1, body) he2 hf1t2 rfl
  refine ⟨by rw [h1], ?_, ?_, ?_, ?_, ?_⟩
  · rw [hr1fs, lookup_writeFile_self]
  · rw [hr1fs]
    unfold writeFile
    rw [List.filter_append]
    have hleft : (removeFile (removeFile fs (derive_filename url now1 ++ ".tmp"))
        (derive_filename url now1)).filter (fun e => e.2 == body) = [] := by
      rw [List.filter_eq_nil_iff]
      intro e hmem
      have hefs : e ∈ fs :=
        (mem_removeFile.mp (mem_removeFile.mp hmem).1).1
      have hne := hfresh e hefs
      simp only [beq_iff_eq]
      intro hcontra
      exact hne (by rw [hcontra])
    rw [hleft]
    simp
  · rw [hr1fs]
    exact hdup.1
  · rw [hr1fs]
    rw [hdup.2.1]
    exact removeFile_eq_self hl2
  · rw [hr1fs]
    exact hdup.2.2

/-- C3 witness at a concrete URL, body and populated directory. -/
theorem claim_C3_witness :
    (fetch_and_save_image (fun s => s) "http://example.com/a.png"
        (FetchOutcome.response 200 (some "image/png") "BYTES")
        ⟨2025, 1, 1, 0, 0, 0⟩ Faults.noFaults "Fetched_Images" [("old.png", "OLD")]).result
      = Except.ok true ∧
    (fetch_and_save_image (fun s => s) "http://example.com/a.png"
        (FetchOutcome.response 200 (some "image/png") "BYTES")
        ⟨2025, 1, 1, 0, 0, 2⟩ Faults.noFaults "Fetched_Images"
        (fetch_and_save_image (fun s => s) "http://example.com/a.png"
          (FetchOutcome.response 200 (some "image/png") "BYTES")
          ⟨2025, 1, 1, 0, 0, 0⟩ Faults.noFaults "Fetched_Images"
          [("old.png", "OLD")]).fs).result = Except.ok false := by
  have h := claim_C3_same_fetch_twice (fun s => s) "http://example.com/a.png"
    200 (some "image/png") "BYTES" ⟨2025, 1, 1, 0, 0, 0⟩ ⟨2025, 1, 1, 0, 0, 2⟩
    "Fetched_Images" [("old.png", "OLD")]
    (by omega) (by decide) (by simp [keysNodup]) (by decide) (by decide)
  exact ⟨h.1, h.2.2.2.1⟩

end UIF
